import Mathlib

/-!
Verification of the peer-connection layer (`network/peer.go`) and the avm
transaction layer (`vms/avm/tx.go`) of this repository, as a shallow
embedding in Lean 4.

Modelling conventions:
* Go `int64` byte counters are modelled as `Int` (the quantities involved
  never approach `2^63`, so 64-bit overflow is not modelled); Go `uint32`
  session ids are `Nat` reduced `% 2^32` at the one place the code
  increments them ("Wrapping around to 0 is fine", `peer.go:984`).
* Go integer division truncates toward zero, which is `Int.tdiv`.
* `utils.IPDesc` (not under `src/`) is abstracted to a `Nat` address, with
  `0` playing the role of the zero value (`IsZero`).
* `ids.ShortID` peer ids and parsed `version.Version` values (not under
  `src/`) are abstracted to `Nat`; version compatibility and the beacon
  set are predicates carried by the network state.
* Message emission (`SendPeerList`, logging, metrics counters) is elided;
  the `connected` hook and `Close` calls on supplanted peers are recorded
  in the network state so the claims about them can be stated.
-/

namespace AvaNet

/-! ## Definitions: send path and backpressure (`peer.go:403-445`) -/

/-- Network-level configuration read by the send path: the fields of
`network` consulted by `peer.Send`, `peer.dropMessagePeer` and
`peer.dropMessage` (`peer.go`). All three are `int64` in Go. -/
structure NetSendConfig where
  maxMessageSize : Int
  networkPendingSendBytesToRateLimit : Int
  maxNetworkPendingSendBytes : Int
deriving DecidableEq

/-- State read and written by `peer.Send` (`peer.go:403-445`): the peer's
`closed` flag, the per-peer `pendingBytes`, the network-wide
`net.pendingBytes`, and the bounded `sender` channel, modelled as the FIFO
list of the byte-lengths of the frames it holds plus its capacity. -/
structure SendState where
  closed : Bool
  peerPending : Int
  netPending : Int
  queue : List Int
  queueCap : Nat
deriving DecidableEq

/-- `peer.dropMessagePeer` (`peer.go:535-537`): drop when this peer's
current `pendingBytes` exceeds `maxMessageSize`. -/
def dropMessagePeer (cfg : NetSendConfig) (peerPending : Int) : Bool :=
  peerPending > cfg.maxMessageSize

/-- `peer.dropMessage` (`peer.go:539-544`). `peerPending` is the peer's
current `pendingBytes` as read by the nested `dropMessagePeer` call;
`connPendingLen` and `networkPendingLen` are the arguments of the Go
function. `maxNetworkPendingSendBytes/20` is Go `int64` division, i.e.
truncation toward zero (`Int.tdiv`). -/
def dropMessage (cfg : NetSendConfig)
    (peerPending connPendingLen networkPendingLen : Int) : Bool :=
  networkPendingLen > cfg.networkPendingSendBytesToRateLimit &&
    dropMessagePeer cfg peerPending &&
    (networkPendingLen > cfg.maxNetworkPendingSendBytes ||
      connPendingLen > Int.tdiv cfg.maxNetworkPendingSendBytes 20)

/-- `peer.Send` (`peer.go:403-445`). Returns the updated state and whether
the message was queued. The speculative addition of `msgBytesLen` to the
network-wide counter and its reversal on the drop paths mirror the source;
the non-blocking channel send succeeds exactly when the bounded queue has
room. -/
def send (cfg : NetSendConfig) (s : SendState) (msgBytesLen : Int) :
    SendState × Bool :=
  if s.closed then (s, false)
  else if dropMessagePeer cfg s.peerPending then (s, false)
  else
    let newPendingBytes := s.netPending + msgBytesLen
    let s1 : SendState := { s with netPending := newPendingBytes }
    let newConnPendingBytes := s.peerPending + msgBytesLen
    if dropMessage cfg s1.peerPending newConnPendingBytes newPendingBytes then
      ({ s1 with netPending := s1.netPending - msgBytesLen }, false)
    else if s1.queue.length < s1.queueCap then
      ({ s1 with queue := s1.queue ++ [msgBytesLen],
                 peerPending := s1.peerPending + msgBytesLen }, true)
    else
      ({ s1 with netPending := s1.netPending - msgBytesLen }, false)

/-! ## Definitions: the send/write lifecycle as a transition system

`WriteMessages` (`peer.go:382-400`) decrements both pending-byte counters
when it dequeues a frame, *before* attempting the write; a write error
makes it return (its deferred `Close` fires). `peer.close`
(`peer.go:550-568`) closes the connection and the `sender` channel but
performs no counter decrement, so the writer loop ends after draining the
channel — or earlier, when a write on the closed connection fails. Write
errors on a still-open connection are not modelled (the claims do not
need them): in the model `sendRaw` fails exactly when the connection has
been closed. -/

/-- A whole peer as seen by the send/write lifecycle: the send-path state
plus whether the `WriteMessages` task has returned. -/
structure PeerSysState where
  sendSt : SendState
  writerExited : Bool
deriving DecidableEq

/-- One iteration of the `WriteMessages` loop (`peer.go:382-400`). On an
open, empty channel the writer blocks (no state change); on a closed,
drained channel the `range` ends and the writer returns; on a dequeue it
decrements both counters and then returns iff the write fails (connection
closed). -/
def writerStep (s : PeerSysState) : PeerSysState :=
  if s.writerExited then s
  else
    match s.sendSt.queue with
    | [] =>
      if s.sendSt.closed then { s with writerExited := true } else s
    | n :: rest =>
      let st : SendState := { s.sendSt with
        queue := rest,
        peerPending := s.sendSt.peerPending - n,
        netPending := s.sendSt.netPending - n }
      if s.sendSt.closed then { sendSt := st, writerExited := true }
      else { s with sendSt := st }

/-- `peer.Close` / `peer.close` (`peer.go:547-568`) as it affects the
send/write lifecycle: idempotent, sets `closed` (conn and `sender` channel
closed); it performs no counter updates. -/
def closeStep (s : PeerSysState) : PeerSysState :=
  if s.sendSt.closed then s
  else { s with sendSt := { s.sendSt with closed := true } }

/-- Events of the send/write lifecycle. A `Send` carries its message byte
length `len(msgBytes)`, a natural number. -/
inductive PeerEvent where
  | send (n : Nat)
  | writer
  | close
deriving DecidableEq

/-- One event of the lifecycle. -/
def peerStep (cfg : NetSendConfig) (s : PeerSysState) : PeerEvent → PeerSysState
  | .send n => { s with sendSt := (send cfg s.sendSt (n : Int)).1 }
  | .writer => writerStep s
  | .close => closeStep s

/-- A sequence of lifecycle events from a starting state. -/
def runEvents (cfg : NetSendConfig) (s0 : PeerSysState)
    (es : List PeerEvent) : PeerSysState :=
  es.foldl (peerStep cfg) s0

/-- Configuration for the C2 counterexample run: generous limits, so no
drop rule fires. -/
def leakCfg : NetSendConfig :=
  { maxMessageSize := 100,
    networkPendingSendBytesToRateLimit := 1000,
    maxNetworkPendingSendBytes := 1000 }

/-- Initial state of the C2 counterexample run: open connection, empty
queue of capacity 10, zero counters, writer running. -/
def leakInit : PeerSysState :=
  { sendSt := { closed := false, peerPending := 0, netPending := 0,
                queue := [], queueCap := 10 },
    writerExited := false }

/-- The C2 counterexample trace: two successful sends, a close, then the
writer and further events run to quiescence. -/
def leakTrace : List PeerEvent :=
  [.send 5, .send 7, .close, .writer, .writer, .writer, .close, .writer]

/-! ## Definitions: handshake state machine (`peer.go:643-766, 962-1016`) -/

/-- The fields of `network` read and written by the `Version` handler and
`tryMarkConnected`. `peers` maps a peer key to the *handle* of the
registered peer object (each live `peer` value gets a distinct handle);
`connectedHooks` records the handles passed to the Network `connected`
hook, most recent first; `closedHandles` records peers whose `Close` was
invoked because a new connection supplanted them. `compatible` is the
external `version.Compatible` check and `beacons` the beacon id set. -/
structure NetState where
  networkID : Nat
  nodeID : Nat
  myTime : Int
  maxClockDifference : Int
  beacons : Nat → Bool
  compatible : Nat → Bool
  peers : Nat → Option Nat
  nextSessionID : Nat → Nat
  disconnectedIPs : Nat → Bool
  myIPs : Nat → Bool
  connectedHooks : List Nat
  closedHandles : List Nat

/-- The fields of `peer` involved in the reactive handshake. `handle` is
the identity of this peer object (used for registry entries); `ip = 0`
models the zero `utils.IPDesc`. -/
structure PeerHandshakeState where
  handle : Nat
  id : Nat
  gotVersion : Bool
  gotPeerList : Bool
  connected : Bool
  closed : Bool
  ip : Nat
  incomingSessionID : Nat
  versionStr : Option Nat

/-- An inbound `Version` message as seen by the handler: `versionField` is
the result of `parser.Parse` on `VersionStr` (`none`: unparseable). -/
structure VersionMsg where
  networkID : Nat
  nodeID : Nat
  sessionID : Nat
  myTime : Int
  ip : Nat
  versionField : Option Nat

/-- Modelled from the spec: `network.disconnected` (in `network.go`, which
is not under `src/`) is called by `peer.close` and removes this peer's own
registry entry — per the spec, a Peer "on close is removed from the
registry exactly once" and `connected ⇔ peers[id] = self`; an entry held
by a different peer object for the same key is not touched. -/
def netDisconnected (net : NetState) (p : PeerHandshakeState) : NetState :=
  if net.peers p.id = some p.handle then
    { net with peers := Function.update net.peers p.id none }
  else net

/-- `peer.Close` / `peer.close` (`peer.go:547-568`) as it affects the
handshake state: idempotent; sets `closed` and notifies
`net.disconnected`. -/
def peerClose (net : NetState) (p : PeerHandshakeState) :
    NetState × PeerHandshakeState :=
  if p.closed then (net, p)
  else
    let p2 : PeerHandshakeState := { p with closed := true }
    (netDisconnected net p2, p2)

/-- `peer.discardIP` (`peer.go:991-1001`): when the stored IP is nonzero,
clear it and remove it from `disconnectedIPs`; then `Close`. -/
def discardIP (net : NetState) (p : PeerHandshakeState) :
    NetState × PeerHandshakeState :=
  if p.ip ≠ 0 then
    peerClose
      { net with disconnectedIPs := Function.update net.disconnectedIPs p.ip false }
      { p with ip := 0 }
  else peerClose net p

/-- `peer.discardMyIP` (`peer.go:1003-1016`): like `discardIP` but also
records the discarded IP in `myIPs`. -/
def discardMyIP (net : NetState) (p : PeerHandshakeState) :
    NetState × PeerHandshakeState :=
  if p.ip ≠ 0 then
    peerClose
      { net with
        myIPs := Function.update net.myIPs p.ip true,
        disconnectedIPs := Function.update net.disconnectedIPs p.ip false }
      { p with ip := 0 }
  else peerClose net p

/-- `peer.tryMarkConnected` (`peer.go:962-989`). When the peer is not yet
connected, has both handshake messages, and is not closed: any previously
registered peer for the same key is closed first (recorded in
`closedHandles`; its own `close` removes its registry entry via
`net.disconnected`), the peer becomes `connected`, the next session id
becomes `max(nextSessionID[key], incomingSessionID) + 1` as a `uint32`
(wrapping), `peers[key]` is set to this peer, and the Network `connected`
hook is invoked. Otherwise nothing changes. -/
def tryMarkConnected (net : NetState) (p : PeerHandshakeState) :
    NetState × PeerHandshakeState :=
  if p.connected = false ∧ p.gotVersion = true ∧ p.gotPeerList = true then
    if p.closed then (net, p)
    else
      let key := p.id
      let net1 : NetState :=
        match net.peers key with
        | some oldHandle =>
          { net with
            closedHandles := oldHandle :: net.closedHandles,
            peers := Function.update net.peers key none }
        | none => net
      let p2 : PeerHandshakeState := { p with connected := true }
      let n0 := net1.nextSessionID key
      let n1 := if p2.incomingSessionID > n0 then p2.incomingSessionID else n0
      let net2 : NetState := { net1 with
        nextSessionID := Function.update net1.nextSessionID key ((n1 + 1) % 2 ^ 32),
        peers := Function.update net1.peers key (some p2.handle),
        connectedHooks := p2.handle :: net1.connectedHooks }
      (net2, p2)
  else (net, p)

/-- Outcome tag of one run of the `Version` handler. -/
inductive VersionAction where
  | ignoredDuplicate
  | discardedIP
  | discardedMyIP
  | proceeded
deriving DecidableEq

/-- `peer.version` (`peer.go:643-766`), the reactive `Version` handler.
`remoteIP` is the parse of `conn.RemoteAddr()` (`none`: unparseable). In
order: a duplicate `Version` is ignored; a `networkID` mismatch, a
`nodeID` equal to ours, a clock difference beyond `maxClockDifference`
(beacon or not), an unparseable version, and an incompatible version on a
non-beacon each reject the connection; then the session check: when a
peer is already registered under this key and the incoming session id is
nonzero and below `nextSessionID[key]`, the connection is discarded;
otherwise the claimed IP is stored when none is known yet and it matches
the remote address, the handshake fields are set, and `tryMarkConnected`
runs. (`SendPeerList` emission is elided.) The clock comparison is exact
integer arithmetic; the Go code compares `float64` images of the unix
times, which agree below `2^53`. -/
def versionHandler (net : NetState) (p : PeerHandshakeState)
    (msg : VersionMsg) (remoteIP : Option Nat) :
    NetState × PeerHandshakeState × VersionAction :=
  if p.gotVersion then (net, p, .ignoredDuplicate)
  else if msg.networkID ≠ net.networkID then
    let r := discardIP net p
    (r.1, r.2, .discardedIP)
  else if msg.nodeID = net.nodeID then
    let r := discardMyIP net p
    (r.1, r.2, .discardedMyIP)
  else if |msg.myTime - net.myTime| > net.maxClockDifference then
    let r := discardIP net p
    (r.1, r.2, .discardedIP)
  else
    match msg.versionField with
    | none =>
      let r := discardIP net p
      (r.1, r.2, .discardedIP)
    | some v =>
      if net.compatible v = false ∧ net.beacons p.id = false then
        let r := discardIP net p
        (r.1, r.2, .discardedIP)
      else
        let nextS := net.nextSessionID p.id
        let isConnected := (net.peers p.id).isSome
        if isConnected ∧ msg.sessionID ≠ 0 ∧ msg.sessionID < nextS then
          let r := discardIP net p
          (r.1, r.2, .discardedIP)
        else
          let p1 : PeerHandshakeState :=
            if p.ip = 0 ∧ remoteIP = some msg.ip then { p with ip := msg.ip } else p
          let p2 : PeerHandshakeState := { p1 with
            versionStr := some v,
            gotVersion := true,
            incomingSessionID := msg.sessionID }
          let r := tryMarkConnected net p2
          (r.1, r.2, .proceeded)

/-! ## Definitions: concrete states used by the witnesses -/

/-- A concrete network state: our id 10 on network 1, a peer registered
under key 5 with handle 70 and `nextSessionID 5 = 4`, clock at 1000,
60-second clock tolerance, no beacons, every version compatible. -/
def wNet : NetState :=
  { networkID := 1, nodeID := 10, myTime := 1000, maxClockDifference := 60,
    beacons := fun _ => false, compatible := fun _ => true,
    peers := fun k => if k = 5 then some 70 else none,
    nextSessionID := fun k => if k = 5 then 4 else 0,
    disconnectedIPs := fun _ => false, myIPs := fun _ => false,
    connectedHooks := [], closedHandles := [] }

/-- A fresh inbound connection from the peer with key 5: handle 71, no
handshake progress, stored IP 9. -/
def wPeerFresh : PeerHandshakeState :=
  { handle := 71, id := 5, gotVersion := false, gotPeerList := false,
    connected := false, closed := false, ip := 9,
    incomingSessionID := 0, versionStr := none }

/-- `wPeerFresh` after its `Version` was already handled. -/
def wPeerGotV : PeerHandshakeState := { wPeerFresh with gotVersion := true }

/-- A closed peer. -/
def wPeerClosed : PeerHandshakeState := { wPeerFresh with closed := true }

/-- An already connected peer. -/
def wPeerConnected : PeerHandshakeState :=
  { wPeerFresh with gotVersion := true, gotPeerList := true, connected := true }

/-- A peer ready to connect: both handshake messages received, incoming
session id 9. -/
def wPeerReady : PeerHandshakeState :=
  { wPeerFresh with gotVersion := true, gotPeerList := true,
                    incomingSessionID := 9 }

/-- A well-formed `Version` message from key 5 carrying a stale session id
3 (our `nextSessionID 5` is 4). -/
def wMsgStale : VersionMsg :=
  { networkID := 1, nodeID := 20, sessionID := 3, myTime := 1010,
    ip := 9, versionField := some 0 }

/-- The same message with session id 0 (peer restarted). -/
def wMsgZero : VersionMsg := { wMsgStale with sessionID := 0 }

/-- A `Version` message with a mismatched network id. -/
def wMsgBadNet : VersionMsg := { wMsgStale with networkID := 2 }

/-- A `Version` message claiming our own node id. -/
def wMsgSelf : VersionMsg := { wMsgStale with nodeID := 10 }

/-- A `Version` message whose clock is 120 seconds ahead of ours
(tolerance 60). -/
def wMsgSkew : VersionMsg := { wMsgStale with myTime := 1120 }

/-! ## Definitions: outbound `Version` construction (`peer.go:578-592,
1117-1127`) -/

/-- A `Version` wire message as produced by `Builder.Version`. Per the
builder contract exercised by `builder_test.go` (`TestBuildVersion`), the
field list is `NetworkID, NodeID, SessionID, MyTime, IP, VersionStr`;
`sessionID = none` records a construction that omits the field. -/
structure BuiltVersionMsg where
  networkID : Nat
  nodeID : Nat
  sessionID : Option Nat
  myTime : Int
  ip : Nat
  versionStr : String

/-- `peer.Version` (`peer.go:578-592`), the `Version` sent in response to
`GetVersion` (the `getVersion` handler calls `Version`): built from
`networkID, nodeID, nextSessionID[p.id], clock.Unix(), own ip, own
version string`. `myIP` is `net.ip.IP()` and `vstr` is
`net.version.String()`. -/
def peerVersionMsg (net : NetState) (p : PeerHandshakeState)
    (myIP : Nat) (vstr : String) : BuiltVersionMsg :=
  { networkID := net.networkID, nodeID := net.nodeID,
    sessionID := some (net.nextSessionID p.id),
    myTime := net.myTime, ip := myIP, versionStr := vstr }

/-- `peer.verionAck` (`peer.go:1117-1127`), the `Version` sent by the
dialer at the start of the handshake (`Start`): the call passes only
`networkID, nodeID, clock.Unix(), ip, version string` — no session id. -/
def verionAckMsg (net : NetState) (myIP : Nat) (vstr : String) :
    BuiltVersionMsg :=
  { networkID := net.networkID, nodeID := net.nodeID,
    sessionID := none,
    myTime := net.myTime, ip := myIP, versionStr := vstr }

/-! ## Definitions: reader framing (`peer.go:311-379`) -/

/-- A 4-byte big-endian unsigned length prefix (`wrappers.IntLen = 4`) as
read by `Packer.UnpackInt`. Bytes are naturals below 256. -/
def beBytesToNat (bs : List Nat) : Nat :=
  bs.foldl (fun a b => a * 256 + b) 0

/-- `wrappers.Packer.UnpackBytes` on the reader's pending buffer: read a
4-byte big-endian length, then that many payload bytes; `none` when the
buffer does not yet hold a complete frame (the `Packer` errors). Returns
the payload and the residual bytes past the consumed frame. -/
def unpackBytes (buf : List Nat) : Option (List Nat × List Nat) :=
  if 4 ≤ buf.length ∧ 4 + beBytesToNat (buf.take 4) ≤ buf.length then
    some ((buf.drop 4).take (beBytesToNat (buf.take 4)),
          buf.drop (4 + beBytesToNat (buf.take 4)))
  else none

/-- The `ReadMessages` loop (`peer.go:311-379`). Each element of `chunks`
is one `conn.Read` result (at most `readBufferSize` bytes); exhausting
`chunks` models a read error or EOF, on which the loop returns. Per
iteration the loop appends the chunk to the pending buffer and attempts
to unpack one frame: with no complete frame it terminates when the buffer
exceeds `maxMessageSize + 4` bytes and otherwise keeps reading; with a
complete frame it terminates when the payload exceeds `maxMessageSize`
and otherwise hands the payload to `Parse`/`handle` and keeps the
residual bytes. Returns the list of payloads handed to the parser. -/
def readLoop (maxMessageSize : Nat) :
    List (List Nat) → List Nat → List (List Nat)
  | [], _ => []
  | c :: cs, buf =>
    let b := buf ++ c
    match unpackBytes b with
    | none =>
      if b.length > maxMessageSize + 4 then []
      else readLoop maxMessageSize cs b
    | some (msgBytes, rest) =>
      if msgBytes.length > maxMessageSize then []
      else msgBytes :: readLoop maxMessageSize cs rest

/-- `readLoop`, instrumented with the largest pending-buffer length the
reader ever holds (identical control flow). -/
def readLoopMaxBuf (maxMessageSize : Nat) :
    List (List Nat) → List Nat → Nat
  | [], buf => buf.length
  | c :: cs, buf =>
    let b := buf ++ c
    max b.length
      (match unpackBytes b with
       | none =>
         if b.length > maxMessageSize + 4 then b.length
         else readLoopMaxBuf maxMessageSize cs b
       | some (msgBytes, rest) =>
         if msgBytes.length > maxMessageSize then b.length
         else readLoopMaxBuf maxMessageSize cs rest)

/-! ## Definitions: avm transaction syntactic verification
(`vms/avm/tx.go:373-401`) -/

/-- Error constants of the avm tx layer (`errors.New` values; only their
identities matter). `credentialFailed e` is the `fmt.Errorf`-wrapped
credential error. -/
inductive TxErr where
  | nilTx
  | initialStatesNotSortedUnique
  | wrongNumberOfCredentials
  | credentialFailed (e : Nat)
deriving DecidableEq

/-- The fields of `avm.Tx` read and written by `Tx.SyntacticVerify`. The
embedded `UnsignedTx` interface is abstracted by what the generic code
observes: `none` models a nil interface, otherwise the pair of the result
of its own `SyntacticVerify` (`some e`: it returns error `e`) and its
`NumCredentials`. Each credential is abstracted by its `Verify` outcome.
-/
structure AvmTx where
  unsignedTx : Option (Option Nat × Nat)
  creds : List (Option Nat)
  verifiedTx : Bool
  validity : Option TxErr

/-- First failing credential, in `range t.Creds` order. -/
def firstCredErr : List (Option Nat) → Option Nat
  | [] => none
  | none :: rest => firstCredErr rest
  | some e :: _ => some e

/-- `Tx.SyntacticVerify` (`tx.go:373-401`): the nil checks, the
cached-verdict check, then the embedded `UnsignedTx.SyntacticVerify` —
any error from it is replaced by the constant
`errInitialStatesNotSortedUnique`, which is cached as the validity — then
credential verification and the credential-count check. Returns the
updated transaction and the result. -/
def txSyntacticVerify (t : AvmTx) : AvmTx × Option TxErr :=
  match t.unsignedTx with
  | none => (t, some .nilTx)
  | some (ures, numCreds) =>
    if t.verifiedTx then (t, t.validity)
    else
      let t1 : AvmTx := { t with verifiedTx := true }
      match ures with
      | some _ =>
        ({ t1 with validity := some .initialStatesNotSortedUnique },
         some .initialStatesNotSortedUnique)
      | none =>
        match firstCredErr t1.creds with
        | some e =>
          ({ t1 with validity := some (.credentialFailed e) },
           some (.credentialFailed e))
        | none =>
          if numCreds ≠ t1.creds.length then
            ({ t1 with validity := some .wrongNumberOfCredentials },
             some .wrongNumberOfCredentials)
          else (t1, none)

/-- A concrete transaction whose embedded `UnsignedTx.SyntacticVerify`
fails with an arbitrary error (42), used by the C9 witness. -/
def wTx : AvmTx :=
  { unsignedTx := some (some 42, 1), creds := [none],
    verifiedTx := false, validity := none }

/-! ## Theorems -/

/-- C1: `Send(msg)` returns true iff the peer is not closed, its
`pendingBytes` does not exceed `maxMessageSize` (`dropMessagePeer` false),
the combined rule `dropMessage(connPending+len, netPending+len)` is false
— that rule holding iff the incremented network pending exceeds
`networkPendingSendBytesToRateLimit`, `dropMessagePeer` holds, and the
incremented network pending exceeds `maxNetworkPendingSendBytes` or the
incremented connection pending exceeds `maxNetworkPendingSendBytes/20` —
and the bounded sender queue has room for the frame. -/
theorem send_true_iff (cfg : NetSendConfig) (s : SendState) (n : Int) :
    (send cfg s n).2 = true ↔
      (s.closed = false ∧
       s.peerPending ≤ cfg.maxMessageSize ∧
       ¬(s.netPending + n > cfg.networkPendingSendBytesToRateLimit ∧
         s.peerPending > cfg.maxMessageSize ∧
         (s.netPending + n > cfg.maxNetworkPendingSendBytes ∨
          s.peerPending + n > Int.tdiv cfg.maxNetworkPendingSendBytes 20)) ∧
       s.queue.length < s.queueCap) := by
  unfold send
  dsimp only
  split_ifs with h1 h2 h3 h4 <;>
    simp_all [dropMessage, dropMessagePeer, not_lt]

/-- C2 counterexample: both sends succeed (5 and 7 bytes enqueued, both
counters reach 12); the peer closes; the writer dequeues the first frame
(decrementing to 7), its write on the closed connection fails and it
exits. The 7-byte frame admitted by the second successful `Send` is never
dequeued and `close` performs no decrement, so after the system is
quiescent (writer exited, peer closed, further events applied) both
counters still hold 7: that frame's bytes are never decremented, neither
by the writer nor on close. -/
theorem send_pending_leak_cex :
    (runEvents leakCfg leakInit leakTrace).sendSt.peerPending = 7 ∧
    (runEvents leakCfg leakInit leakTrace).sendSt.netPending = 7 ∧
    (runEvents leakCfg leakInit leakTrace).sendSt.queue = [7] ∧
    (runEvents leakCfg leakInit leakTrace).sendSt.closed = true ∧
    (runEvents leakCfg leakInit leakTrace).writerExited = true := by
  decide

/-- C2 (amended): a `Send` returning true with `n` message bytes adds
exactly `n` to the per-peer and the network-wide pending counter and
appends the frame to the queue; a `Send` returning false leaves both
counters and the queue exactly unchanged (the speculative network-wide
addition is reverted); when the writer dequeues a frame of `m` bytes it
decrements both counters by exactly `m` exactly once (removing the frame
from the queue); but the close path performs no decrement, and once the
writer has exited no event ever decreases the counters again — frames
still queued then leak. -/
theorem send_pending_accounting (cfg : NetSendConfig) (s : PeerSysState)
    (n m : Int) (rest : List Int) :
    ((send cfg s.sendSt n).2 = true →
      (send cfg s.sendSt n).1.peerPending = s.sendSt.peerPending + n ∧
      (send cfg s.sendSt n).1.netPending = s.sendSt.netPending + n ∧
      (send cfg s.sendSt n).1.queue = s.sendSt.queue ++ [n]) ∧
    ((send cfg s.sendSt n).2 = false →
      (send cfg s.sendSt n).1.peerPending = s.sendSt.peerPending ∧
      (send cfg s.sendSt n).1.netPending = s.sendSt.netPending ∧
      (send cfg s.sendSt n).1.queue = s.sendSt.queue) ∧
    (s.writerExited = false → s.sendSt.queue = m :: rest →
      (writerStep s).sendSt.peerPending = s.sendSt.peerPending - m ∧
      (writerStep s).sendSt.netPending = s.sendSt.netPending - m ∧
      (writerStep s).sendSt.queue = rest) ∧
    (s.writerExited = true → ∀ e : PeerEvent,
      s.sendSt.peerPending ≤ (peerStep cfg s e).sendSt.peerPending ∧
      s.sendSt.netPending ≤ (peerStep cfg s e).sendSt.netPending ∧
      (peerStep cfg s e).writerExited = true) := by
  refine ⟨?_, ?_, ?_, ?_⟩
  · intro h
    unfold send at h ⊢
    dsimp only at h ⊢
    split_ifs at h ⊢ <;> simp_all
  · intro h
    unfold send at h ⊢
    dsimp only at h ⊢
    split_ifs at h ⊢ <;> simp_all
  · intro hw hq
    simp only [writerStep, hw, hq]
    split_ifs <;> simp_all
  · intro hw e
    cases e with
    | send n =>
      simp only [peerStep]
      unfold send
      dsimp only
      split_ifs <;> simp_all
    | writer =>
      simp [peerStep, writerStep, hw]
    | close =>
      unfold peerStep closeStep
      split_ifs <;> simp_all

/-- Witness for `send_pending_accounting`, applying it at concrete inputs:
from `leakInit`, a `Send` of 5 bytes succeeds and moves both counters from
0 to 5; from the quiescent leaked state (counters at 7, writer exited), a
further `Send` of 5 bytes is refused (connection closed) and leaves the
counters at 7; the writer part fires on a state with queue `[3]`. -/
theorem send_pending_accounting_witness :
    ((send leakCfg leakInit.sendSt 5).1.peerPending = leakInit.sendSt.peerPending + 5 ∧
     (send leakCfg leakInit.sendSt 5).1.netPending = leakInit.sendSt.netPending + 5 ∧
     (send leakCfg leakInit.sendSt 5).1.queue = leakInit.sendSt.queue ++ [5]) ∧
    ((send leakCfg (runEvents leakCfg leakInit leakTrace).sendSt 5).1.peerPending
        = (runEvents leakCfg leakInit leakTrace).sendSt.peerPending ∧
     (send leakCfg (runEvents leakCfg leakInit leakTrace).sendSt 5).1.netPending
        = (runEvents leakCfg leakInit leakTrace).sendSt.netPending ∧
     (send leakCfg (runEvents leakCfg leakInit leakTrace).sendSt 5).1.queue
        = (runEvents leakCfg leakInit leakTrace).sendSt.queue) ∧
    ((writerStep ⟨{ closed := false, peerPending := 3, netPending := 3,
                    queue := [3], queueCap := 10 }, false⟩).sendSt.peerPending = 3 - 3 ∧
     (writerStep ⟨{ closed := false, peerPending := 3, netPending := 3,
                    queue := [3], queueCap := 10 }, false⟩).sendSt.netPending = 3 - 3 ∧
     (writerStep ⟨{ closed := false, peerPending := 3, netPending := 3,
                    queue := [3], queueCap := 10 }, false⟩).sendSt.queue = []) := by
  refine ⟨?_, ?_, ?_⟩
  · exact (send_pending_accounting leakCfg leakInit 5 0 []).1 (by decide)
  · exact (send_pending_accounting leakCfg
      (runEvents leakCfg leakInit leakTrace) 5 0 []).2.1 (by decide)
  · exact (send_pending_accounting leakCfg
      ⟨{ closed := false, peerPending := 3, netPending := 3,
         queue := [3], queueCap := 10 }, false⟩ 5 3 []).2.2.1 rfl rfl

/-! Helper lemmas about the discard paths, shared by the claims below. -/

theorem discardIP_closed (net : NetState) (p : PeerHandshakeState) :
    (discardIP net p).2.closed = true := by
  unfold discardIP peerClose
  split_ifs with h1 h2 h3 <;> simp_all

theorem discardIP_peers (net : NetState) (p : PeerHandshakeState)
    (h : net.peers p.id ≠ some p.handle) :
    (discardIP net p).1.peers = net.peers := by
  unfold discardIP peerClose netDisconnected
  split_ifs <;> simp_all

theorem discardMyIP_closed (net : NetState) (p : PeerHandshakeState) :
    (discardMyIP net p).2.closed = true := by
  unfold discardMyIP peerClose
  split_ifs with h1 h2 h3 <;> simp_all

theorem discardMyIP_peers (net : NetState) (p : PeerHandshakeState)
    (h : net.peers p.id ≠ some p.handle) :
    (discardMyIP net p).1.peers = net.peers := by
  unfold discardMyIP peerClose netDisconnected
  split_ifs <;> simp_all

theorem discardMyIP_records (net : NetState) (p : PeerHandshakeState)
    (h : p.ip ≠ 0) :
    (discardMyIP net p).1.myIPs p.ip = true := by
  unfold discardMyIP peerClose netDisconnected
  dsimp only
  split_ifs <;> simp_all [Function.update]

/-- C10: a further inbound `Version` on a peer whose `gotVersion` flag is
already set is ignored entirely: the handler returns before any check or
update, leaving the peer state, the network state (registry included) and
the connection untouched. -/
theorem version_duplicate_ignored (net : NetState) (p : PeerHandshakeState)
    (msg : VersionMsg) (remote : Option Nat) (h : p.gotVersion = true) :
    versionHandler net p msg remote = (net, p, .ignoredDuplicate) := by
  simp [versionHandler, h]

/-- Witness for `version_duplicate_ignored` at a concrete state. -/
theorem version_duplicate_ignored_witness :
    versionHandler wNet wPeerGotV wMsgStale none
      = (wNet, wPeerGotV, .ignoredDuplicate) :=
  version_duplicate_ignored wNet wPeerGotV wMsgStale none rfl

/-- C5: `tryMarkConnected` on a peer that is closed or already connected
changes nothing at all — the same peer state and the same network state
(handshake flags, registry, `nextSessionID`, hooks) come back. -/
theorem tryMarkConnected_noop (net : NetState) (p : PeerHandshakeState)
    (h : p.closed = true ∨ p.connected = true) :
    tryMarkConnected net p = (net, p) := by
  rcases h with h | h <;> simp [tryMarkConnected, h]

/-- Witness for `tryMarkConnected_noop`: a closed peer and a connected
peer, both left untouched. -/
theorem tryMarkConnected_noop_witness :
    tryMarkConnected wNet wPeerClosed = (wNet, wPeerClosed) ∧
    tryMarkConnected wNet wPeerConnected = (wNet, wPeerConnected) :=
  ⟨tryMarkConnected_noop wNet wPeerClosed (Or.inl rfl),
   tryMarkConnected_noop wNet wPeerConnected (Or.inr rfl)⟩

/-- C4: when `tryMarkConnected` transitions a peer to connected (not
connected, `gotVersion`, `gotPeerList`, not closed), it sets
`nextSessionID[id]` to `max(previous, incomingSessionID) + 1` (as a
wrapping `uint32`), stores `peers[id] = this peer` — closing any
previously registered peer for the id first — and invokes the Network
`connected` hook on this peer. -/
theorem tryMarkConnected_connects (net : NetState) (p : PeerHandshakeState)
    (hc : p.connected = false) (hv : p.gotVersion = true)
    (hpl : p.gotPeerList = true) (hcl : p.closed = false) :
    (tryMarkConnected net p).1.nextSessionID p.id
        = (max (net.nextSessionID p.id) p.incomingSessionID + 1) % 2 ^ 32 ∧
    (tryMarkConnected net p).1.peers p.id = some p.handle ∧
    (tryMarkConnected net p).2.connected = true ∧
    (tryMarkConnected net p).1.connectedHooks = p.handle :: net.connectedHooks ∧
    (∀ h : Nat, net.peers p.id = some h →
      h ∈ (tryMarkConnected net p).1.closedHandles) := by
  unfold tryMarkConnected
  rw [if_pos ⟨hc, hv, hpl⟩]
  simp only [hcl, Bool.false_eq_true, if_false]
  cases hp : net.peers p.id with
  | none =>
    refine ⟨?_, ?_, ?_, ?_, ?_⟩
    · simp only [Function.update_same]
      congr 1
      split_ifs <;> omega
    · simp
    · trivial
    · rfl
    · intro h hh
      simp at hh
  | some oldHandle =>
    refine ⟨?_, ?_, ?_, ?_, ?_⟩
    · simp only [Function.update_same]
      congr 1
      split_ifs <;> omega
    · simp
    · trivial
    · rfl
    · intro h hh
      injection hh with hh
      simp [hh]

/-- Witness for `tryMarkConnected_connects`: a fresh ready peer (handle
71) supplants the registered peer (handle 70); the session counter moves
to `max(4, 9) + 1 = 10`. -/
theorem tryMarkConnected_connects_witness :
    (tryMarkConnected wNet wPeerReady).1.nextSessionID wPeerReady.id
        = (max (wNet.nextSessionID wPeerReady.id) wPeerReady.incomingSessionID + 1) % 2 ^ 32 ∧
    (tryMarkConnected wNet wPeerReady).1.peers wPeerReady.id = some wPeerReady.handle ∧
    (tryMarkConnected wNet wPeerReady).2.connected = true ∧
    (tryMarkConnected wNet wPeerReady).1.connectedHooks
        = wPeerReady.handle :: wNet.connectedHooks ∧
    70 ∈ (tryMarkConnected wNet wPeerReady).1.closedHandles := by
  have h := tryMarkConnected_connects wNet wPeerReady rfl rfl rfl rfl
  exact ⟨h.1, h.2.1, h.2.2.1, h.2.2.2.1, h.2.2.2.2 70 rfl⟩

/-- C3: for a peer already registered under this key and an inbound
`Version` that passes every earlier check (no duplicate, network id
matches, node id differs, clocks in sync, version parseable and
compatible or beacon), the handler lets the new connection proceed to
supplant the old one iff the incoming session id `s` is `0` or
`s ≥ nextSessionID[id]`; otherwise (`s` nonzero and below the counter) it
discards the new connection via `discardIP` — closing it — and the peers
registry is unchanged. -/
theorem version_session_arbitration (net : NetState) (p : PeerHandshakeState)
    (msg : VersionMsg) (remote : Option Nat) (v oldHandle : Nat)
    (hdup : p.gotVersion = false)
    (hnet : msg.networkID = net.networkID)
    (hnode : msg.nodeID ≠ net.nodeID)
    (hclock : |msg.myTime - net.myTime| ≤ net.maxClockDifference)
    (hver : msg.versionField = some v)
    (hcompat : net.compatible v = true ∨ net.beacons p.id = true)
    (hreg : net.peers p.id = some oldHandle)
    (hself : oldHandle ≠ p.handle) :
    ((versionHandler net p msg remote).2.2 = .proceeded ↔
      (msg.sessionID = 0 ∨ net.nextSessionID p.id ≤ msg.sessionID)) ∧
    (msg.sessionID ≠ 0 → msg.sessionID < net.nextSessionID p.id →
      (versionHandler net p msg remote).2.2 = .discardedIP ∧
      (versionHandler net p msg remote).1.peers = net.peers ∧
      (versionHandler net p msg remote).2.1.closed = true) := by
  have h1 : ¬(msg.networkID ≠ net.networkID) := by simp [hnet]
  have h3 : ¬(|msg.myTime - net.myTime| > net.maxClockDifference) :=
    not_lt.mpr hclock
  have h4 : ¬(net.compatible v = false ∧ net.beacons p.id = false) := by
    rcases hcompat with h | h <;> simp [h]
  have hne : net.peers p.id ≠ some p.handle := by
    rw [hreg]; simp [hself]
  simp only [versionHandler, hdup, Bool.false_eq_true, if_false, hver]
  rw [if_neg h1, if_neg hnode, if_neg h3, if_neg h4]
  simp only [hreg, Option.isSome_some]
  by_cases hs : msg.sessionID ≠ 0 ∧ msg.sessionID < net.nextSessionID p.id
  · rw [if_pos ⟨trivial, hs.1, hs.2⟩]
    refine ⟨?_, ?_⟩
    · simp only []
      constructor
      · intro hpr; cases hpr
      · intro hor
        exfalso
        rcases hor with h | h
        · exact hs.1 h
        · omega
    · intro h5 h6
      exact ⟨by trivial, discardIP_peers net p hne, discardIP_closed net p⟩
  · rw [if_neg (by
      intro hcon
      exact hs ⟨hcon.2.1, hcon.2.2⟩)]
    push_neg at hs
    refine ⟨?_, ?_⟩
    · simp only []
      constructor
      · intro _
        by_cases h0 : msg.sessionID = 0
        · exact Or.inl h0
        · exact Or.inr (hs h0)
      · intro _; trivial
    · intro h5 h6
      exfalso
      have := hs h5
      omega

/-- Witness for `version_session_arbitration`: the registered peer (key 5,
handle 70, `nextSessionID = 4`) receives a new connection with stale
session id 3 — rejected, registry untouched — while session id 0 passes
the arbitration. -/
theorem version_session_arbitration_witness :
    ((versionHandler wNet wPeerFresh wMsgStale none).2.2 = .proceeded ↔
      (wMsgStale.sessionID = 0 ∨
        wNet.nextSessionID wPeerFresh.id ≤ wMsgStale.sessionID)) ∧
    ((versionHandler wNet wPeerFresh wMsgStale none).2.2 = .discardedIP ∧
     (versionHandler wNet wPeerFresh wMsgStale none).1.peers = wNet.peers ∧
     (versionHandler wNet wPeerFresh wMsgStale none).2.1.closed = true) ∧
    ((versionHandler wNet wPeerFresh wMsgZero none).2.2 = .proceeded ↔
      (wMsgZero.sessionID = 0 ∨
        wNet.nextSessionID wPeerFresh.id ≤ wMsgZero.sessionID)) := by
  have h := version_session_arbitration wNet wPeerFresh wMsgStale none 0 70
    rfl rfl (by decide) (by decide) rfl (Or.inl rfl) rfl (by decide)
  have h0 := version_session_arbitration wNet wPeerFresh wMsgZero none 0 70
    rfl rfl (by decide) (by decide) rfl (Or.inl rfl) rfl (by decide)
  exact ⟨h.1, h.2 (by decide) (by decide), h0.1⟩

/-- C7: an inbound `Version` on a fresh (unregistered) connection is
rejected — the handler closes the connection and the peers registry is
left unchanged, so no entry for this peer remains — when the network id
differs from ours (`discardIP`), when the node id equals our own
(`discardMyIP`, recording the stored nonzero IP in `myIPs`), and when the
clock difference exceeds `maxClockDifference` (`discardIP`, beacon or
not). -/
theorem version_rejections (net : NetState) (p : PeerHandshakeState)
    (msg : VersionMsg) (remote : Option Nat)
    (hdup : p.gotVersion = false)
    (hunreg : net.peers p.id ≠ some p.handle) :
    (msg.networkID ≠ net.networkID →
      (versionHandler net p msg remote).2.2 = .discardedIP ∧
      (versionHandler net p msg remote).2.1.closed = true ∧
      (versionHandler net p msg remote).1.peers = net.peers) ∧
    (msg.networkID = net.networkID → msg.nodeID = net.nodeID →
      (versionHandler net p msg remote).2.2 = .discardedMyIP ∧
      (versionHandler net p msg remote).2.1.closed = true ∧
      (versionHandler net p msg remote).1.peers = net.peers ∧
      (p.ip ≠ 0 → (versionHandler net p msg remote).1.myIPs p.ip = true)) ∧
    (msg.networkID = net.networkID → msg.nodeID ≠ net.nodeID →
      |msg.myTime - net.myTime| > net.maxClockDifference →
      (versionHandler net p msg remote).2.2 = .discardedIP ∧
      (versionHandler net p msg remote).2.1.closed = true ∧
      (versionHandler net p msg remote).1.peers = net.peers) := by
  refine ⟨?_, ?_, ?_⟩
  · intro hne
    simp only [versionHandler, hdup, Bool.false_eq_true, if_false]
    rw [if_pos hne]
    exact ⟨rfl, discardIP_closed net p, discardIP_peers net p hunreg⟩
  · intro he hnode
    have h1 : ¬(msg.networkID ≠ net.networkID) := by simp [he]
    simp only [versionHandler, hdup, Bool.false_eq_true, if_false]
    rw [if_neg h1, if_pos hnode]
    exact ⟨rfl, discardMyIP_closed net p, discardMyIP_peers net p hunreg,
      fun hip => discardMyIP_records net p hip⟩
  · intro he hnode hclock
    have h1 : ¬(msg.networkID ≠ net.networkID) := by simp [he]
    simp only [versionHandler, hdup, Bool.false_eq_true, if_false]
    rw [if_neg h1, if_neg hnode, if_pos hclock]
    exact ⟨rfl, discardIP_closed net p, discardIP_peers net p hunreg⟩

/-- Witness for `version_rejections`: the fresh connection (handle 71,
stored IP 9) is rejected on a wrong network id, on our own node id (the
IP 9 lands in `myIPs`), and on a 120-second clock skew against the
60-second tolerance. -/
theorem version_rejections_witness :
    ((versionHandler wNet wPeerFresh wMsgBadNet none).2.2 = .discardedIP ∧
     (versionHandler wNet wPeerFresh wMsgBadNet none).2.1.closed = true ∧
     (versionHandler wNet wPeerFresh wMsgBadNet none).1.peers = wNet.peers) ∧
    ((versionHandler wNet wPeerFresh wMsgSelf none).2.2 = .discardedMyIP ∧
     (versionHandler wNet wPeerFresh wMsgSelf none).2.1.closed = true ∧
     (versionHandler wNet wPeerFresh wMsgSelf none).1.peers = wNet.peers ∧
     (versionHandler wNet wPeerFresh wMsgSelf none).1.myIPs wPeerFresh.ip = true) ∧
    ((versionHandler wNet wPeerFresh wMsgSkew none).2.2 = .discardedIP ∧
     (versionHandler wNet wPeerFresh wMsgSkew none).2.1.closed = true ∧
     (versionHandler wNet wPeerFresh wMsgSkew none).1.peers = wNet.peers) := by
  refine ⟨?_, ?_, ?_⟩
  · exact (version_rejections wNet wPeerFresh wMsgBadNet none rfl
      (by decide)).1 (by decide)
  · have h := (version_rejections wNet wPeerFresh wMsgSelf none rfl
      (by decide)).2.1 rfl rfl
    exact ⟨h.1, h.2.1, h.2.2.1, h.2.2.2 (by decide)⟩
  · exact (version_rejections wNet wPeerFresh wMsgSkew none rfl
      (by decide)).2.2 rfl (by decide) (by decide)

/-- C6: the `Version` sent in response to `GetVersion` carries the local
node's current session id for that peer, but the `Version` built by
`verionAck` at the start of the dialer handshake (`Start`) carries no
session id at all — the construction omits the `SessionID` field the
builder contract requires, contradicting the claim that every outbound
`Version` carries the current session id. -/
theorem verionAck_omits_session (net : NetState) (p : PeerHandshakeState)
    (myIP : Nat) (vstr : String) :
    (peerVersionMsg net p myIP vstr).sessionID
        = some (net.nextSessionID p.id) ∧
    (verionAckMsg net myIP vstr).sessionID = none :=
  ⟨rfl, rfl⟩

/-- C8 counterexample: with `maxMessageSize = 2`, a single read delivers a
frame declaring payload length 3 (bytes `00 00 00 03 09 09 09`). The
reader terminates without handing the frame to the parser — but only
*after* its pending buffer has accumulated all `4 + 3 = 7` bytes of the
declared frame, so termination does not happen before a buffer of the
declared size has been accumulated. -/
theorem readLoop_oversize_cex :
    readLoop 2 [[0, 0, 0, 3, 9, 9, 9]] [] = [] ∧
    readLoopMaxBuf 2 [[0, 0, 0, 3, 9, 9, 9]] [] = 7 ∧
    unpackBytes [0, 0, 0, 3, 9, 9, 9] = some ([9, 9, 9], []) ∧
    2 < 3 ∧ 4 + 3 ≤ 7 := by
  decide

/-- C8 (amended): every frame the reader hands to the parser has payload
length at most `maxMessageSize` — an oversized frame is never delivered —
and when the pending buffer completes a frame whose payload exceeds
`maxMessageSize`, the reader terminates the connection at once,
delivering nothing further; no buffer is ever allocated from the declared
length, but the pending buffer may briefly hold the full declared frame
when the declared length is within one read chunk of the limit. -/
theorem readLoop_oversize_safe (maxM : Nat) (cs : List (List Nat))
    (buf : List Nat) :
    (∀ m ∈ readLoop maxM cs buf, m.length ≤ maxM) ∧
    (∀ c cs2 msg rest, unpackBytes (buf ++ c) = some (msg, rest) →
      maxM < msg.length → readLoop maxM (c :: cs2) buf = []) := by
  constructor
  · induction cs generalizing buf with
    | nil => intro m hm; simp [readLoop] at hm
    | cons c cs ih =>
      intro m hm
      rw [readLoop] at hm
      rcases hu : unpackBytes (buf ++ c) with - | ⟨msg, rest⟩ <;>
        simp only [hu] at hm
      · split_ifs at hm with hlen
        · simp at hm
        · exact ih (buf ++ c) m hm
      · split_ifs at hm with hlen
        · simp at hm
        · rcases List.mem_cons.mp hm with h | h
          · subst h; omega
          · exact ih rest m h
  · intro c cs2 msg rest hu hlen
    rw [readLoop]
    simp only [hu]
    rw [if_pos hlen]

/-- Witness for `readLoop_oversize_safe`: a delivered in-bound frame
(payload `[9]`, length 1 ≤ 2) satisfies the bound, and the oversized
frame of the counterexample terminates the loop with nothing delivered.
-/
theorem readLoop_oversize_safe_witness :
    [(9 : Nat)].length ≤ 2 ∧
    readLoop 2 [[0, 0, 0, 3, 9, 9, 9]] [] = [] :=
  ⟨(readLoop_oversize_safe 2 [[0, 0, 0, 1, 9]] []).1 [9] (by decide),
   (readLoop_oversize_safe 2 [] []).2 [0, 0, 0, 3, 9, 9, 9] [] [9, 9, 9] []
     (by decide) (by decide)⟩

/-- C9: whenever the embedded `UnsignedTx.SyntacticVerify` returns any
error `e` on a not-yet-verified transaction, `Tx.SyntacticVerify` returns
the single constant `errInitialStatesNotSortedUnique` regardless of the
actual underlying error, caches it as the transaction's validity, and a
repeated call returns the same cached constant. -/
theorem txSyntacticVerify_collapses (t : AvmTx) (e : Nat) (numCreds : Nat)
    (hu : t.unsignedTx = some (some e, numCreds))
    (hv : t.verifiedTx = false) :
    (txSyntacticVerify t).2 = some .initialStatesNotSortedUnique ∧
    (txSyntacticVerify t).1.validity = some .initialStatesNotSortedUnique ∧
    (txSyntacticVerify (txSyntacticVerify t).1).2
        = some .initialStatesNotSortedUnique := by
  simp [txSyntacticVerify, hu, hv]

/-- Witness for `txSyntacticVerify_collapses` on `wTx`, whose embedded
verification fails with the unrelated error 42. -/
theorem txSyntacticVerify_collapses_witness :
    (txSyntacticVerify wTx).2 = some .initialStatesNotSortedUnique ∧
    (txSyntacticVerify wTx).1.validity
        = some .initialStatesNotSortedUnique ∧
    (txSyntacticVerify (txSyntacticVerify wTx).1).2
        = some .initialStatesNotSortedUnique :=
  txSyntacticVerify_collapses wTx 42 1 rfl rfl

end AvaNet
